import Mathlib

namespace SignCore

/-- A user snapshot as read from the user store: group label and
registration timestamp (epoch seconds; `<= 0` means no registration time
recorded). -/
structure User where
  group : String
  createdTime : Int
deriving DecidableEq

/-- An audit-log record (`model.Log`), restricted to the fields the
check-in core reads or writes. -/
structure LogEntry where
  userId : Int
  username : String
  createdAt : Int
  type : Int
  content : String
  quota : Int
deriving DecidableEq

/-- The distinguished "sign" kind discriminator (`model.LogTypeSign`).
Modelled from the spec: the constant lives outside the given slice; its
concrete value is immaterial, only that writes and queries use the same one. -/
def LogTypeSign : Int := 6

/-- Ambient configuration and clock: `common.QuotaForSign`,
`common.SignInDays`, `ratio_setting.IsGroupSignEnabled`,
`common.GetTimestamp()` and the server-local timezone, modelled as a fixed
offset (seconds east of UTC); Go civil-day arithmetic (`AddDate(0,0,k)`,
midnight truncation) at a fixed offset is plain `± k*86400` arithmetic. -/
structure Env where
  quotaForSign : Int
  signInDays : Int
  isGroupSignEnabled : String → Bool
  now : Int
  tz : Int

/-- Storage state with fault injection: `users` models `GetUserById`
(`.error` = lookup failure), `usernames` models `GetUsernameById` (its
error is discarded by the caller, so only the value matters), `quotas`
the user balances, `logs` the append-only audit log, `sysLogs` the
system diagnostic log (`common.SysLog`); the `*Err` fields inject a
failure (`some msg`) into the corresponding storage operation. -/
structure DB where
  users : Int → Except String User
  usernames : Int → String
  quotas : Int → Int
  logs : List LogEntry
  sysLogs : List String
  countErr : Option String
  totalCountErr : Option String
  findErr : Option String
  createErr : Option String
  increaseErr : Option String

/-- Local civil day number of an epoch timestamp (stands for the
"YYYY-MM-DD" string of `Format("2006-01-02")`; the formatting is injective
on day numbers). `/` on `Int` is Euclidean division, which for the positive
divisor 86400 is floor division, matching civil-day computation. -/
def dateNum (tz ts : Int) : Int := (ts + tz) / 86400

/-- Epoch timestamp of local midnight of day number `d`. -/
def midnight (tz d : Int) : Int := d * 86400 - tz

/-- `GetTodayStartTimestamp`: local midnight of the current day. -/
def GetTodayStartTimestamp (env : Env) : Int :=
  midnight env.tz (dateNum env.tz env.now)

/-- `GetTodayEndTimestamp`: 23:59:59 local of the current day
(`.Unix()` truncates the 999999999 nanoseconds). -/
def GetTodayEndTimestamp (env : Env) : Int :=
  GetTodayStartTimestamp env + 86399

/-- The predicate of the `HasUserSignedToday` count query: a "sign"-kind
record of this user created within `[todayStart, todayEnd]`, both bounds
inclusive. -/
def isTodaySignLog (env : Env) (uid : Int) (l : LogEntry) : Bool :=
  l.userId == uid && l.type == LogTypeSign &&
    decide (GetTodayStartTimestamp env ≤ l.createdAt) &&
    decide (l.createdAt ≤ GetTodayEndTimestamp env)

/-- The count computed by `HasUserSignedToday`'s range query. -/
def signedTodayCount (env : Env) (db : DB) (uid : Int) : Nat :=
  (db.logs.filter (isTodaySignLog env uid)).length

/-- `HasUserSignedToday`: count "sign" records in `[todayStart, todayEnd]`,
propagating a query error, else `count > 0`. -/
def HasUserSignedToday (env : Env) (db : DB) (uid : Int) : Except String Bool :=
  match db.countErr with
  | some e => .error e
  | none => .ok (decide (0 < signedTodayCount env db uid))

def msgNotEnabled : String := "签到功能未启用"
def msgUserFetchFailed : String := "获取用户信息失败"
def msgGroupNotAllowed : String := "您所在的用户组不允许签到"
def msgNewUserOnly : String := "签到功能仅限新注册用户"
def msgWindowExpired (days : Int) : String :=
  "签到仅限注册后" ++ toString days ++ "天内的用户"
def msgCheckSignFailed : String := "检查签到状态失败"
def msgAlreadySigned : String := "今天已经签到过了"

/-- `CheckUserSignEligibility`: the sequential policy checks of
src/model/sign.go, in source order, short-circuiting on the first failure.
Go's `/` on int64 truncates toward zero, i.e. `Int.tdiv`. -/
def CheckUserSignEligibility (env : Env) (db : DB) (uid : Int) : Bool × String :=
  if env.quotaForSign ≤ 0 then (false, msgNotEnabled)
  else
    match db.users uid with
    | .error _ => (false, msgUserFetchFailed)
    | .ok user =>
      if !(env.isGroupSignEnabled user.group) then (false, msgGroupNotAllowed)
      else if user.createdTime ≤ 0 then (false, msgNewUserOnly)
      else
        let registeredDays := Int.tdiv (env.now - user.createdTime) 86400
        if env.signInDays ≤ registeredDays then (false, msgWindowExpired env.signInDays)
        else
          match HasUserSignedToday env db uid with
          | .error _ => (false, msgCheckSignFailed)
          | .ok true => (false, msgAlreadySigned)
          | .ok false => (true, "")

structure SignResult where
  success : Bool
  message : String
  quota : Int
deriving DecidableEq

/-- Rendering of a quota amount in log/result messages
(`logger.LogQuota`). Modelled from the spec: the logger package is outside
the given slice; the rendering is an opaque-but-concrete string function and
no claim depends on its exact output. -/
def LogQuota (q : Int) : String := toString q

def msgIncreaseFailed (e : String) : String := "增加额度失败：" ++ e
def msgSignSuccess (q : Int) : String := "签到成功，获得 " ++ LogQuota q
def signLogContent (q : Int) : String := "签到获得 " ++ LogQuota q

/-- `DoSign`: re-check eligibility (ineligible is a normal outcome, not an
error), best-effort username resolution, increase the balance (an error
there aborts the grant), then append the audit record; a failing audit
write is written to the system log and the grant still succeeds. -/
def DoSign (env : Env) (db : DB) (uid : Int) : Except String (SignResult × DB) :=
  match CheckUserSignEligibility env db uid with
  | (false, reason) => .ok ({ success := false, message := reason, quota := 0 }, db)
  | (true, _) =>
    let username := db.usernames uid
    let quota := env.quotaForSign
    match db.increaseErr with
    | some e => .error (msgIncreaseFailed e)
    | none =>
      let db1 : DB :=
        { db with quotas := fun i => if i == uid then db.quotas i + quota else db.quotas i }
      let entry : LogEntry :=
        { userId := uid, username := username, createdAt := env.now,
          type := LogTypeSign, content := signLogContent quota, quota := quota }
      let db2 : DB :=
        match db.createErr with
        | some e => { db1 with sysLogs := db1.sysLogs ++ ["failed to record sign log: " ++ e] }
        | none => { db1 with logs := db1.logs ++ [entry] }
      .ok ({ success := true, message := msgSignSuccess quota, quota := quota }, db2)

/-- One day's status in the calendar (`model.SignStatus`); the date is the
local day number standing for the "YYYY-MM-DD" string. -/
structure SignStatus where
  date : Int
  signed : Bool
deriving DecidableEq

/-- The start instant of the calendar: the registration timestamp, or 30
days before now when none is recorded (`AddDate(0,0,-30)`). -/
def listStartTime (env : Env) (u : User) : Int :=
  if 0 < u.createdTime then u.createdTime else env.now - 30 * 86400

/-- The end instant of the calendar: today 23:59:59 local, clamped to the
sign deadline `startTime + signInDays` days when that is earlier. -/
def listEndTime (env : Env) (u : User) : Int :=
  let endTime0 := midnight env.tz (dateNum env.tz env.now) + 86399
  let signDeadline := listStartTime env u + env.signInDays * 86400
  if signDeadline < endTime0 then signDeadline else endTime0

/-- The collapsed set of local dates of the user's "sign" audit records
(the `signedDates` map; a list used for membership only, so duplicates are
absorbed by the set semantics). -/
def signedDatesOf (tz : Int) (logs : List LogEntry) (uid : Int) : List Int :=
  (logs.filter (fun l => l.userId == uid && l.type == LogTypeSign)).map
    (fun l => dateNum tz l.createdAt)

/-- The generation loop of `GetUserSignList`: starting at a local-midnight
instant `cur`, emit one entry per day while `cur ≤ endTime`, stepping one
day (`AddDate(0,0,1)` = +86400 at a fixed offset). -/
def calendarLoop (tz : Int) (signed : List Int) (endTime cur : Int) : List SignStatus :=
  if h : cur ≤ endTime then
    { date := dateNum tz cur, signed := signed.contains (dateNum tz cur) } ::
      calendarLoop tz signed endTime (cur + 86400)
  else []
termination_by (endTime + 86400 - cur).toNat
decreasing_by simp_wf; omega

/-- `GetUserSignList`: per-day signed/unsigned calendar from the
registration day to the earlier of today and the sign deadline. -/
def GetUserSignList (env : Env) (db : DB) (uid : Int) : Except String (List SignStatus) :=
  match db.users uid with
  | .error e => .error e
  | .ok user =>
    match db.findErr with
    | some e => .error e
    | none =>
      .ok (calendarLoop env.tz (signedDatesOf env.tz db.logs uid) (listEndTime env user)
        (midnight env.tz (dateNum env.tz (listStartTime env user))))

/-- The aggregated read view (`model.SignInfo`). -/
structure SignInfo where
  enabled : Bool
  quotaPerSign : Int
  signInDays : Int
  signedToday : Bool
  canSign : Bool
  message : String
  remainingDays : Int
  totalSignDays : Int
  signList : List SignStatus
deriving DecidableEq

/-- The count of the unbounded total-signs query in `GetUserSignInfo`. -/
def totalSignCount (db : DB) (uid : Int) : Nat :=
  (db.logs.filter (fun l => l.userId == uid && l.type == LogTypeSign)).length

/-- `GetUserSignInfo`: compose the read view, short-circuiting when the
feature is disabled, the group disallows signing, or no registration time
is recorded; storage faults on the remaining path are propagated. -/
def GetUserSignInfo (env : Env) (db : DB) (uid : Int) : Except String SignInfo :=
  let info0 : SignInfo :=
    { enabled := decide (0 < env.quotaForSign), quotaPerSign := env.quotaForSign,
      signInDays := env.signInDays, signedToday := false, canSign := false,
      message := "", remainingDays := 0, totalSignDays := 0, signList := [] }
  if !info0.enabled then .ok { info0 with message := msgNotEnabled }
  else
    match db.users uid with
    | .error e => .error e
    | .ok user =>
      if !(env.isGroupSignEnabled user.group) then
        .ok { info0 with message := msgGroupNotAllowed, canSign := false }
      else if user.createdTime ≤ 0 then
        .ok { info0 with message := msgNewUserOnly, canSign := false, remainingDays := 0 }
      else
        let registeredDays := Int.tdiv (env.now - user.createdTime) 86400
        let remaining0 := env.signInDays - registeredDays
        let remaining := if remaining0 < 0 then 0 else remaining0
        match db.totalCountErr with
        | some e => .error e
        | none =>
          match HasUserSignedToday env db uid with
          | .error e => .error e
          | .ok signedToday =>
            match GetUserSignList env db uid with
            | .error e => .error e
            | .ok signList =>
              match CheckUserSignEligibility env db uid with
              | (canSign, reason) =>
                .ok { info0 with
                  signedToday := signedToday, canSign := canSign,
                  message := if !canSign then reason else info0.message,
                  remainingDays := remaining,
                  totalSignDays := (totalSignCount db uid : Int),
                  signList := signList }


/-! ### Claim-side ordered-check evaluator
The following two definitions follow the words of the specification's
eligibility section (a fixed ordered list of failure checks with their
reasons, the surfaced reason being that of the earliest failing check),
to be compared with the source-translated `CheckUserSignEligibility`. -/

/-- Whether the user-record lookup fails. -/
def userLookupFailed (db : DB) (uid : Int) : Bool :=
  match db.users uid with
  | .error _ => true
  | .ok _ => false

/-- Evaluate a predicate on the looked-up user record (false when the
lookup fails; in the ordered-check list this case is unreachable because
the lookup-failure check comes earlier). -/
def onUser (db : DB) (uid : Int) (p : User → Bool) : Bool :=
  match db.users uid with
  | .error _ => false
  | .ok u => p u

/-- The specification's six policy checks, in its fixed order, each paired
with the reason it surfaces. -/
def eligibilityChecks (env : Env) (db : DB) (uid : Int) : List (Bool × String) :=
  [ (decide (env.quotaForSign ≤ 0), msgNotEnabled),
    (userLookupFailed db uid, msgUserFetchFailed),
    (onUser db uid (fun u => !(env.isGroupSignEnabled u.group)), msgGroupNotAllowed),
    (onUser db uid (fun u => decide (u.createdTime ≤ 0)), msgNewUserOnly),
    (onUser db uid (fun u =>
        decide (env.signInDays ≤ Int.tdiv (env.now - u.createdTime) 86400)),
      msgWindowExpired env.signInDays),
    (decide (0 < signedTodayCount env db uid), msgAlreadySigned) ]

/-- Short-circuit on the earliest failing check, surfacing its reason;
eligible with an empty reason when every check passes. -/
def firstFailure : List (Bool × String) → Bool × String
  | [] => (true, "")
  | (b, r) :: rest => if b then (false, r) else firstFailure rest

/-- Number of calendar entries emitted from day `d` on, with end instant
`endTime`: one per day while the day's midnight is not after `endTime`. -/
def countDays (tz endTime d : Int) : Nat :=
  if midnight tz d ≤ endTime then ((endTime - midnight tz d).toNat / 86400) + 1 else 0

/-! ### Concrete instances used by witnesses and counterexamples -/

/-- A benign configuration: reward 100, 7-day window, every group allowed,
UTC, `now` at 12:00:50 local on day 3. -/
def wEnv : Env :=
  { quotaForSign := 100, signInDays := 7, isGroupSignEnabled := fun _ => true,
    now := 3 * 86400 + 43250, tz := 0 }

/-- A user registered 10 seconds past local midnight of day 1. -/
def wUser : User := { group := "default", createdTime := 86400 + 10 }

/-- A fault-free store holding `wUser` and an empty audit log. -/
def wDB : DB :=
  { users := fun _ => .ok wUser, usernames := fun _ => "alice",
    quotas := fun _ => 500, logs := [], sysLogs := [], countErr := none,
    totalCountErr := none, findErr := none, createErr := none,
    increaseErr := none }

/-- A "sign" audit record of user 1 written earlier today (day 3). -/
def wLog2 : LogEntry :=
  { userId := 1, username := "alice", createdAt := 3 * 86400 + 100,
    type := LogTypeSign, content := "", quota := 100 }

/-- `wDB` after user 1 already signed today. -/
def w2DB : DB := { wDB with logs := [wLog2] }

/-- `wDB` with a fault injected into the audit-record write. -/
def w3DB : DB := { wDB with createErr := some "disk full" }

/-- `wDB` with a fault injected into the audit-log find query. -/
def w4DB : DB := { wDB with findErr := some "query failed" }

/-- `wEnv` with the check-in feature disabled (reward 0). -/
def e5 : Env := { wEnv with quotaForSign := 0 }

/-- A user with no recorded registration timestamp. -/
def u5 : User := { group := "default", createdTime := 0 }

/-- `wDB` holding the unregistered user `u5`. -/
def d5 : DB := { wDB with users := fun _ => .ok u5 }

/-- A "sign" audit record created exactly at today's 23:59:59 boundary
second (day 3). -/
def wLog6 : LogEntry :=
  { userId := 1, username := "alice", createdAt := 3 * 86400 + 86399,
    type := LogTypeSign, content := "", quota := 100 }

/-- `wDB` whose only audit record sits exactly on today's end boundary. -/
def w6DB : DB := { wDB with logs := [wLog6] }

/-- The calendar `GetUserSignList` yields for `wEnv`/`w6DB`: days 1..3,
signed exactly on day 3. -/
def w8List : List SignStatus := [⟨1, false⟩, ⟨2, false⟩, ⟨3, true⟩]

/-- `wEnv` evaluated on day 8 = registration day + window, at an instant a
full window after the registration instant. -/
def wEnv10 : Env := { wEnv with now := 8 * 86400 + 20 }

/-! ### Helper lemmas -/

/-- An eligible verdict always carries the empty reason. -/
lemma elig_true_eq (env : Env) (db : DB) (uid : Int)
    (h : (CheckUserSignEligibility env db uid).1 = true) :
    CheckUserSignEligibility env db uid = (true, "") := by
  unfold CheckUserSignEligibility at h ⊢
  split_ifs at h ⊢
  all_goals try simp_all
  cases hu : db.users uid with
  | error e => simp_all
  | ok u =>
    simp_all
    split_ifs at h ⊢
    all_goals try simp_all
    cases hc : HasUserSignedToday env db uid with
    | error e => simp_all
    | ok b => cases b <;> simp_all

lemma dateNum_midnight (tz d : Int) : dateNum tz (midnight tz d) = d := by
  unfold dateNum midnight
  omega

lemma midnight_succ (tz d : Int) : midnight tz (d + 1) = midnight tz d + 86400 := by
  unfold midnight
  ring

/-- Closed form of the generation loop: starting at the midnight of day
`d` it emits exactly `countDays tz endTime d` entries, one per consecutive
day, each flagged by set membership of its date. -/
lemma calendarLoop_spec (tz : Int) (signed : List Int) (endTime : Int) :
    ∀ (n : Nat) (d : Int), countDays tz endTime d = n →
      calendarLoop tz signed endTime (midnight tz d) =
        (List.range n).map (fun k => ⟨d + k, signed.contains (d + (k : Int))⟩) := by
  intro n
  induction n with
  | zero =>
    intro d h
    have hgt : ¬ midnight tz d ≤ endTime := by
      unfold countDays at h
      by_contra hc
      simp [hc] at h
    unfold calendarLoop
    rw [dif_neg hgt]
    simp
  | succ m ih =>
    intro d h
    have hle : midnight tz d ≤ endTime := by
      unfold countDays at h
      by_contra hc
      simp [hc] at h
    have hnext : countDays tz endTime (d + 1) = m := by
      unfold countDays at h ⊢
      rw [if_pos hle] at h
      rw [midnight_succ]
      unfold midnight at *
      split_ifs <;> omega
    unfold calendarLoop
    rw [dif_pos hle, ← midnight_succ, ih (d + 1) hnext, dateNum_midnight,
      List.range_succ_eq_map, List.map_cons, List.map_map]
    simp only [Nat.cast_zero, add_zero, List.cons.injEq, true_and]
    apply List.map_congr_left
    intro k _
    simp only [Function.comp_apply, Nat.succ_eq_add_one, Nat.cast_add, Nat.cast_one]
    rw [show d + 1 + (k : Int) = d + ((k : Int) + 1) from by ring]

/-- `countDays` counted in whole days: the entries run from day `d` to the
day of the end instant, inclusive. -/
lemma countDays_eq (tz T d : Int) :
    countDays tz T d = if d ≤ dateNum tz T then (dateNum tz T - d).toNat + 1 else 0 := by
  unfold countDays midnight dateNum
  split_ifs <;> omega

/-- Closed form of `GetUserSignList` on the fault-free path. -/
lemma getUserSignList_ok (env : Env) (db : DB) (uid : Int) (u : User)
    (hu : db.users uid = .ok u) (hf : db.findErr = none) :
    GetUserSignList env db uid = .ok
      ((List.range (countDays env.tz (listEndTime env u)
          (dateNum env.tz (listStartTime env u)))).map
        (fun (k : Nat) => ⟨dateNum env.tz (listStartTime env u) + (k : Int),
          (signedDatesOf env.tz db.logs uid).contains
            (dateNum env.tz (listStartTime env u) + (k : Int))⟩)) := by
  simp only [GetUserSignList, hu, hf]
  rw [calendarLoop_spec env.tz (signedDatesOf env.tz db.logs uid) (listEndTime env u)
    (countDays env.tz (listEndTime env u) (dateNum env.tz (listStartTime env u)))
    (dateNum env.tz (listStartTime env u)) rfl]

/-! ### Claims -/

/-- C1: `CheckUserSignEligibility` evaluates its policy checks in exactly
the fixed order (feature disabled; user lookup failure; group not allowed;
no registration timestamp; `floor((now - registration)/86400)` at least the
window days; already signed today), short-circuits on the first failure and
returns that check's reason, and returns eligible with an empty reason when
all six pass. Stated as equality with the spec-side earliest-failing-check
evaluator, under the assumption that the signed-today count query itself
does not fault (the policy checks are then exactly the claim's six). -/
theorem claim_C1 (env : Env) (db : DB) (uid : Int) (h : db.countErr = none) :
    CheckUserSignEligibility env db uid = firstFailure (eligibilityChecks env db uid) := by
  by_cases h1 : env.quotaForSign ≤ 0
  · simp [CheckUserSignEligibility, eligibilityChecks, firstFailure, h1]
  cases hu : db.users uid with
  | error e =>
    simp [CheckUserSignEligibility, eligibilityChecks, firstFailure, userLookupFailed,
      onUser, h1, hu]
  | ok u =>
    by_cases h2 : env.isGroupSignEnabled u.group
    case neg =>
      simp [CheckUserSignEligibility, eligibilityChecks, firstFailure, userLookupFailed,
        onUser, h1, hu, h2]
    by_cases h3 : u.createdTime ≤ 0
    case pos =>
      simp [CheckUserSignEligibility, eligibilityChecks, firstFailure, userLookupFailed,
        onUser, h1, hu, h2, h3]
    by_cases h4 : env.signInDays ≤ Int.tdiv (env.now - u.createdTime) 86400
    case pos =>
      simp [CheckUserSignEligibility, eligibilityChecks, firstFailure, userLookupFailed,
        onUser, h1, hu, h2, h3, h4]
    by_cases h5 : 0 < signedTodayCount env db uid
    all_goals
      simp [CheckUserSignEligibility, eligibilityChecks, firstFailure, userLookupFailed,
        onUser, HasUserSignedToday, h, h1, hu, h2, h3, h4, h5]

/-- C1 witness: the equality at a concrete fault-free configuration. -/
theorem claim_C1_witness :
    CheckUserSignEligibility wEnv wDB 1 = firstFailure (eligibilityChecks wEnv wDB 1) :=
  claim_C1 wEnv wDB 1 rfl

/-- C2: `DoSign` on an ineligible user returns a not-granted result
carrying the ineligibility reason with no error, and the store is returned
unchanged: the balance is untouched and no audit record is appended. -/
theorem claim_C2 (env : Env) (db : DB) (uid : Int) (r : String)
    (hr : CheckUserSignEligibility env db uid = (false, r)) :
    DoSign env db uid = .ok ({ success := false, message := r, quota := 0 }, db) := by
  simp [DoSign, hr]

/-- C2 witness: a user who already signed today gets a not-granted result
with that reason and an unchanged store. -/
theorem claim_C2_witness :
    DoSign wEnv w2DB 1 = .ok ({ success := false, message := msgAlreadySigned, quota := 0 }, w2DB) :=
  claim_C2 wEnv w2DB 1 msgAlreadySigned (by decide)

/-- C3: in `DoSign`, when the balance increase succeeds but the audit
write faults, the balance increase is kept (not rolled back), the failure
is appended to the system diagnostic log, and the grant still returns
success with the granted quota. -/
theorem claim_C3 (env : Env) (db : DB) (uid : Int) (e : String)
    (helig : (CheckUserSignEligibility env db uid).1 = true)
    (hinc : db.increaseErr = none) (hcre : db.createErr = some e) :
    ∃ res db2, DoSign env db uid = .ok (res, db2) ∧
      res.success = true ∧ res.quota = env.quotaForSign ∧
      db2.quotas uid = db.quotas uid + env.quotaForSign ∧
      db2.logs = db.logs ∧
      db2.sysLogs = db.sysLogs ++ ["failed to record sign log: " ++ e] := by
  have h := elig_true_eq env db uid helig
  have hd : DoSign env db uid = .ok
      ({ success := true, message := msgSignSuccess env.quotaForSign,
         quota := env.quotaForSign },
       { db with
         quotas := fun i => if i == uid then db.quotas i + env.quotaForSign else db.quotas i,
         sysLogs := db.sysLogs ++ ["failed to record sign log: " ++ e] }) := by
    simp [DoSign, h, hinc, hcre]
  exact ⟨_, _, hd, rfl, rfl, by simp, rfl, rfl⟩

/-- C3 witness: the audit write faults for an eligible user; the grant
still succeeds, the balance rises by 100 and the system log records it. -/
theorem claim_C3_witness :
    ∃ res db2, DoSign wEnv w3DB 1 = .ok (res, db2) ∧
      res.success = true ∧ res.quota = wEnv.quotaForSign ∧
      db2.quotas 1 = w3DB.quotas 1 + wEnv.quotaForSign ∧
      db2.logs = w3DB.logs ∧
      db2.sysLogs = w3DB.sysLogs ++ ["failed to record sign log: " ++ "disk full"] :=
  claim_C3 wEnv w3DB 1 "disk full" (by decide) rfl rfl

/-- C4 counterexample: the claim says every storage fault — including a
write failure against the audit store — is propagated as a fatal error to
the caller of `DoSign`; here the audit write faults for an eligible user,
yet `DoSign` returns a successful (non-error) result. -/
theorem claim_C4_counterexample :
    (DoSign wEnv w3DB 1).toOption.map Prod.fst =
      some { success := true, message := msgSignSuccess 100, quota := 100 } ∧
    w3DB.createErr = some "disk full" :=
  ⟨rfl, rfl⟩

/-- C4 (amended): storage faults hit by `GetUserSignList` and
`GetUserSignInfo` are propagated as errors (user lookup, total-count,
signed-today count and find-query faults, each on the path that reaches
it); `DoSign` returns an error exactly when the user is eligible and the
balance-increase step faults — its other storage faults surface as a
not-granted result or are only logged, never as an error. -/
theorem claim_C4 (env : Env) (db : DB) (uid : Int) :
    (∀ e, db.users uid = .error e → GetUserSignList env db uid = .error e) ∧
    (∀ u e, db.users uid = .ok u → db.findErr = some e →
      GetUserSignList env db uid = .error e) ∧
    (∀ e, 0 < env.quotaForSign → db.users uid = .error e →
      GetUserSignInfo env db uid = .error e) ∧
    (∀ u e, 0 < env.quotaForSign → db.users uid = .ok u →
      env.isGroupSignEnabled u.group = true → 0 < u.createdTime →
      db.totalCountErr = some e → GetUserSignInfo env db uid = .error e) ∧
    (∀ u e, 0 < env.quotaForSign → db.users uid = .ok u →
      env.isGroupSignEnabled u.group = true → 0 < u.createdTime →
      db.totalCountErr = none → db.countErr = some e →
      GetUserSignInfo env db uid = .error e) ∧
    (∀ u e, 0 < env.quotaForSign → db.users uid = .ok u →
      env.isGroupSignEnabled u.group = true → 0 < u.createdTime →
      db.totalCountErr = none → db.countErr = none → db.findErr = some e →
      GetUserSignInfo env db uid = .error e) ∧
    ((∃ m, DoSign env db uid = .error m) ↔
      ((CheckUserSignEligibility env db uid).1 = true ∧ db.increaseErr ≠ none)) := by
  refine ⟨?_, ?_, ?_, ?_, ?_, ?_, ?_⟩
  · intro e he
    simp [GetUserSignList, he]
  · intro u e hu hf
    simp [GetUserSignList, hu, hf]
  · intro e hq he
    simp [GetUserSignInfo, not_le.mpr hq, he]
  · intro u e hq hu hg hct ht
    simp [GetUserSignInfo, not_le.mpr hq, hu, hg, not_le.mpr hct, ht]
  · intro u e hq hu hg hct ht hc
    simp [GetUserSignInfo, not_le.mpr hq, hu, hg, not_le.mpr hct, ht,
      HasUserSignedToday, hc]
  · intro u e hq hu hg hct ht hc hf
    simp [GetUserSignInfo, not_le.mpr hq, hu, hg, not_le.mpr hct, ht,
      HasUserSignedToday, hc, GetUserSignList, hf]
  · constructor
    · rintro ⟨m, hm⟩
      rcases hE : CheckUserSignEligibility env db uid with ⟨b, s⟩
      unfold DoSign at hm
      rw [hE] at hm
      cases b
      · simp at hm
      · refine ⟨rfl, ?_⟩
        cases hi : db.increaseErr with
        | none => rw [hi] at hm; simp at hm
        | some e => simp [hi]
    · rintro ⟨h1, h2⟩
      have hE := elig_true_eq env db uid h1
      cases hi : db.increaseErr with
      | none => exact absurd hi h2
      | some e =>
        refine ⟨msgIncreaseFailed e, ?_⟩
        unfold DoSign
        rw [hE, hi]

/-- C4 witness: a find-query fault is propagated by `GetUserSignList`. -/
theorem claim_C4_witness : GetUserSignList wEnv w4DB 1 = .error "query failed" :=
  (claim_C4 wEnv w4DB 1).2.1 wUser "query failed" rfl rfl

/-- C5 counterexample: the claim says an unregistered user's reason is
always `NoRegistrationRecord` regardless of the feature flag; with the
feature disabled the surfaced reason is the feature-disabled one instead. -/
theorem claim_C5_counterexample :
    CheckUserSignEligibility e5 d5 1 = (false, msgNotEnabled) ∧
    msgNotEnabled ≠ msgNewUserOnly :=
  ⟨rfl, by decide⟩

/-- C5 (amended): a user whose record carries no registration timestamp
(`createdTime ≤ 0`) is ineligible under every configuration and at every
instant — so never becomes eligible later — and the surfaced reason is
`NoRegistrationRecord` whenever the checks ordered before it pass (feature
enabled and the user's group permitted; the window length never matters). -/
theorem claim_C5 (env : Env) (db : DB) (uid : Int) (u : User)
    (hu : db.users uid = .ok u) (hc : u.createdTime ≤ 0) :
    (CheckUserSignEligibility env db uid).1 = false ∧
    (0 < env.quotaForSign → env.isGroupSignEnabled u.group = true →
      CheckUserSignEligibility env db uid = (false, msgNewUserOnly)) := by
  constructor
  · by_cases h1 : env.quotaForSign ≤ 0
    · simp [CheckUserSignEligibility, h1]
    by_cases h2 : env.isGroupSignEnabled u.group <;>
      simp [CheckUserSignEligibility, h1, hu, h2, hc]
  · intro hq hg
    simp [CheckUserSignEligibility, hu, hg, hc, not_le.mpr hq]

/-- C5 witness: with the feature enabled and the group permitted, the
unregistered user's reason is exactly `NoRegistrationRecord`. -/
theorem claim_C5_witness :
    CheckUserSignEligibility wEnv d5 1 = (false, msgNewUserOnly) :=
  (claim_C5 wEnv d5 1 u5 rfl (by decide)).2 (by decide) rfl

/-- C6: when its count query does not fault, `HasUserSignedToday` returns
true iff some "sign"-kind audit record of the user has creation timestamp
in the closed interval `[TodayStart, TodayEnd]` — both bounds inclusive,
so a record at a boundary second counts as today. -/
theorem claim_C6 (env : Env) (db : DB) (uid : Int) (h : db.countErr = none) :
    HasUserSignedToday env db uid = .ok true ↔
      ∃ lg ∈ db.logs, lg.userId = uid ∧ lg.type = LogTypeSign ∧
        GetTodayStartTimestamp env ≤ lg.createdAt ∧
        lg.createdAt ≤ GetTodayEndTimestamp env := by
  simp only [HasUserSignedToday, h, Except.ok.injEq, decide_eq_true_eq,
    signedTodayCount, List.length_pos_iff_exists_mem]
  constructor
  · rintro ⟨lg, hmem⟩
    rw [List.mem_filter] at hmem
    obtain ⟨hm, hp⟩ := hmem
    obtain ⟨⟨⟨h1, h2⟩, h3⟩, h4⟩ :
        ((lg.userId = uid ∧ lg.type = LogTypeSign) ∧
          GetTodayStartTimestamp env ≤ lg.createdAt) ∧
          lg.createdAt ≤ GetTodayEndTimestamp env := by
      simpa [isTodaySignLog] using hp
    exact ⟨lg, hm, h1, h2, h3, h4⟩
  · rintro ⟨lg, hm, h1, h2, h3, h4⟩
    exact ⟨lg, List.mem_filter.mpr ⟨hm, by simp [isTodaySignLog, h1, h2, h3, h4]⟩⟩

/-- C6 witness: a record created exactly at today's 23:59:59 end-boundary
second counts as signed today. -/
theorem claim_C6_witness : HasUserSignedToday wEnv w6DB 1 = .ok true :=
  (claim_C6 wEnv w6DB 1 rfl).mpr ⟨wLog6, by decide, rfl, rfl, by decide, by decide⟩

/-- C7: on the fault-free path, the calendar returned by `GetUserSignList`
has length `(end date - start date in days) + 1` when the start date is not
after the end date, is empty otherwise (a valid, non-error outcome), and
its i-th entry carries date `start date + i` — exactly one entry per
calendar day, in ascending order. -/
theorem claim_C7 (env : Env) (db : DB) (uid : Int) (u : User)
    (hu : db.users uid = .ok u) (hf : db.findErr = none) :
    ∃ l, GetUserSignList env db uid = .ok l ∧
      l.length = (if dateNum env.tz (listStartTime env u) ≤ dateNum env.tz (listEndTime env u)
        then (dateNum env.tz (listEndTime env u) - dateNum env.tz (listStartTime env u)).toNat + 1
        else 0) ∧
      (∀ (i : Nat) (h : i < l.length),
        (l.get ⟨i, h⟩).date = dateNum env.tz (listStartTime env u) + (i : Int)) := by
  refine ⟨_, getUserSignList_ok env db uid u hu hf, ?_, ?_⟩
  · simp [countDays_eq]
  · intro i h
    simp [List.getElem_map, List.getElem_range]

/-- C7 witness: for a user registered on day 1, today being day 3 inside
the window, the calendar has the 3 entries for days 1, 2 and 3. -/
theorem claim_C7_witness : ∃ l, GetUserSignList wEnv wDB 1 = .ok l ∧ l.length = 3 := by
  obtain ⟨l, h1, h2, h3⟩ := claim_C7 wEnv wDB 1 wUser rfl rfl
  refine ⟨l, h1, ?_⟩
  rw [h2]
  decide

/-- C8: round-trip between the audit log and the calendar — an entry of
the returned calendar is flagged signed iff some "sign"-kind audit record
of the user falls on that entry's exact local date; entries of every other
date stay unflagged, and multiple records on one date collapse by set
membership. -/
theorem claim_C8 (env : Env) (db : DB) (uid : Int) (u : User) (l : List SignStatus)
    (hu : db.users uid = .ok u) (hf : db.findErr = none)
    (hl : GetUserSignList env db uid = .ok l) :
    ∀ st ∈ l, (st.signed = true ↔
      ∃ lg ∈ db.logs, lg.userId = uid ∧ lg.type = LogTypeSign ∧
        dateNum env.tz lg.createdAt = st.date) := by
  have h := (hl.symm.trans (getUserSignList_ok env db uid u hu hf))
  injection h with hlm
  subst hlm
  intro st hst
  rw [List.mem_map] at hst
  obtain ⟨k, _, rfl⟩ := hst
  simp [signedDatesOf, List.mem_filter, List.mem_map]
  constructor
  · rintro ⟨lg, ⟨hmem, hfilt⟩, hdate⟩
    obtain ⟨h1, h2⟩ : lg.userId = uid ∧ lg.type = LogTypeSign := by simpa using hfilt
    exact ⟨lg, hmem, h1, h2, hdate⟩
  · rintro ⟨lg, hmem, hid, hty, hdate⟩
    exact ⟨lg, ⟨hmem, by simp [hid, hty]⟩, hdate⟩

/-- C8 witness: the audit record on day 3 makes exactly the day-3 calendar
entry signed, the days 1 and 2 entries staying unflagged. -/
theorem claim_C8_witness :
    (SignStatus.mk 3 true).signed = true ↔
      ∃ lg ∈ w6DB.logs, lg.userId = 1 ∧ lg.type = LogTypeSign ∧
        dateNum wEnv.tz lg.createdAt = (SignStatus.mk 3 true).date :=
  claim_C8 wEnv w6DB 1 wUser w8List rfl rfl
    ((getUserSignList_ok wEnv w6DB 1 wUser rfl rfl).trans (congrArg Except.ok (by decide)))
    (SignStatus.mk 3 true) (by decide)

/-- C9: with the feature globally disabled (reward quota at most 0),
`GetUserSignInfo` short-circuits: for every store state it returns the
same view — disabled flag and message, with signed-today, can-sign,
remaining-days, total-signed-days and the calendar all at their zero
values — performing no user-specific lookup. -/
theorem claim_C9 (env : Env) (db : DB) (uid : Int) (h : env.quotaForSign ≤ 0) :
    GetUserSignInfo env db uid = .ok
      { enabled := false, quotaPerSign := env.quotaForSign,
        signInDays := env.signInDays, signedToday := false, canSign := false,
        message := msgNotEnabled, remainingDays := 0, totalSignDays := 0,
        signList := [] } := by
  simp [GetUserSignInfo, not_lt.mpr h]

/-- C9 witness: the disabled view at reward 0, with all user-derived
fields at zero. -/
theorem claim_C9_witness :
    GetUserSignInfo e5 wDB 1 = .ok
      { enabled := false, quotaPerSign := 0, signInDays := 7,
        signedToday := false, canSign := false, message := msgNotEnabled,
        remainingDays := 0, totalSignDays := 0, signList := [] } :=
  claim_C9 e5 wDB 1 (by decide)

/-- C10 (implicit): `GetUserSignList` computes the cutoff as the
registration instant plus the window, preserving the registration
time-of-day; so for a user registered strictly after local midnight, on
the day exactly `windowDays` after the registration day the calendar still
contains an entry for that day — `windowDays + 1` entries in all — even
though `CheckUserSignEligibility` already reports the window expired. -/
theorem claim_C10 (env : Env) (db : DB) (uid : Int) (u : User)
    (hu : db.users uid = .ok u) (hf : db.findErr = none)
    (hq : 0 < env.quotaForSign) (hg : env.isGroupSignEnabled u.group = true)
    (hct : 0 < u.createdTime)
    (hmid : midnight env.tz (dateNum env.tz u.createdTime) < u.createdTime)
    (hd : 0 ≤ env.signInDays)
    (htoday : dateNum env.tz env.now = dateNum env.tz u.createdTime + env.signInDays)
    (hexp : env.signInDays * 86400 ≤ env.now - u.createdTime) :
    (∃ l, GetUserSignList env db uid = .ok l ∧
      l.length = env.signInDays.toNat + 1 ∧
      ∃ st ∈ l, st.date = dateNum env.tz u.createdTime + env.signInDays) ∧
    CheckUserSignEligibility env db uid = (false, msgWindowExpired env.signInDays) := by
  have hstart : listStartTime env u = u.createdTime := by
    unfold listStartTime
    rw [if_pos hct]
  have hend : dateNum env.tz (listEndTime env u) =
      dateNum env.tz u.createdTime + env.signInDays := by
    unfold listEndTime listStartTime
    rw [if_pos hct]
    unfold dateNum midnight at hmid
    unfold dateNum at htoday
    unfold dateNum midnight
    dsimp only
    split_ifs <;> omega
  constructor
  · refine ⟨_, getUserSignList_ok env db uid u hu hf, ?_, ?_⟩
    · rw [List.length_map, List.length_range, countDays_eq, hend, hstart, if_pos (by omega)]
      omega
    · refine ⟨_, List.mem_map.mpr ⟨env.signInDays.toNat,
        List.mem_range.mpr ?_, rfl⟩, ?_⟩
      · rw [countDays_eq, hend, hstart, if_pos (by omega)]
        omega
      · simp only [hstart]
        omega
  · have hnn : 0 ≤ env.now - u.createdTime :=
      le_trans (mul_nonneg hd (by norm_num)) hexp
    have hreg : env.signInDays ≤ Int.tdiv (env.now - u.createdTime) 86400 := by
      rw [Int.tdiv_eq_ediv hnn (by norm_num)]
      omega
    simp [CheckUserSignEligibility, hu, hg, hreg, not_le.mpr hq, not_le.mpr hct]

/-- C10 witness: registration 10 seconds past midnight of day 1 with a
7-day window; on day 8 the check reports the window expired, yet the
calendar runs through day 8 with 8 entries. -/
theorem claim_C10_witness :
    (∃ l, GetUserSignList wEnv10 wDB 1 = .ok l ∧ l.length = 8 ∧
      ∃ st ∈ l, st.date = 8) ∧
    CheckUserSignEligibility wEnv10 wDB 1 = (false, msgWindowExpired 7) := by
  obtain ⟨⟨l, h1, h2, st, hst, hd8⟩, helig⟩ :=
    claim_C10 wEnv10 wDB 1 wUser rfl rfl (by decide) rfl (by decide) (by decide)
      (by decide) (by decide) (by decide)
  refine ⟨⟨l, h1, ?_, st, hst, ?_⟩, helig⟩
  · rw [h2]
    decide
  · rw [hd8]
    decide

end SignCore
